import Mathlib

/-!
Verification of the beam-report generator (generate_report.py).

The statics evaluator `compute_sfd_bmd` is embedded over ℚ (exact
arithmetic standing in for Python floats).  Python's
`np.linspace(0, length, 400)` yields the 400 points `i * length / 399`;
the reaction sums, the `xi >= a` load-inclusion test and the per-sample
shear/moment accumulation loop are translated directly from the source.
A checked-division variant (`compute_sfd_bmdE`) models Python's
ZeroDivisionError as `Option`, for the error-behaviour claim.
The force-table block of the report assembler (the loop adding one
tabular row per input row) is embedded as `forceTableBlock`.
-/

/-- Result record of `compute_sfd_bmd`: the Python function returns the
tuple `(x, shear, moment, R1, R2)`. -/
structure BeamResult where
  x : List ℚ
  shear : List ℚ
  moment : List ℚ
  R1 : ℚ
  R2 : ℚ
deriving DecidableEq, Repr

/-- Fixed sample count: `np.linspace(0, length, 400)`. -/
def numSamples : ℕ := 400

/-- `np.linspace(0, length, n)`: n evenly spaced points from 0 to
`length` inclusive, the i-th being `i * length / (n - 1)`. -/
def linspace (length : ℚ) (n : ℕ) : List ℚ :=
  (List.range n).map fun i : ℕ => (i : ℚ) * length / ((n : ℚ) - 1)

/-- `R1 = sum([P * (length - a) / length for a, P in forces])`. -/
def reactionR1 (length : ℚ) (forces : List (ℚ × ℚ)) : ℚ :=
  (forces.map fun f => f.2 * (length - f.1) / length).sum

/-- `R2 = sum([P * a / length for a, P in forces])`. -/
def reactionR2 (length : ℚ) (forces : List (ℚ × ℚ)) : ℚ :=
  (forces.map fun f => f.2 * f.1 / length).sum

/-- The inner loop of `compute_sfd_bmd` for one sample position `xi`:
starting from `V = R1`, `M = R1 * xi`, subtract `P` from `V` and
`P * (xi - a)` from `M` for every load with `xi >= a`. -/
def sampleAt (R1 : ℚ) (forces : List (ℚ × ℚ)) (xi : ℚ) : ℚ × ℚ :=
  forces.foldl
    (fun VM f => if f.1 ≤ xi then (VM.1 - f.2, VM.2 - f.2 * (xi - f.1)) else VM)
    (R1, R1 * xi)

/-- `compute_sfd_bmd(length, forces)` from generate_report.py. -/
def compute_sfd_bmd (length : ℚ) (forces : List (ℚ × ℚ)) : BeamResult :=
  let x := linspace length numSamples
  let R1 := reactionR1 length forces
  let R2 := reactionR2 length forces
  { x := x
    shear := x.map fun xi => (sampleAt R1 forces xi).1
    moment := x.map fun xi => (sampleAt R1 forces xi).2
    R1 := R1
    R2 := R2 }

/-- Python float division, with ZeroDivisionError modelled as `none`. -/
def fdiv (p q : ℚ) : Option ℚ := if q = 0 then none else some (p / q)

/-- Checked version of the `R1` sum: each comprehension term performs a
division by `length`, which raises if `length = 0`. -/
def reactionR1E (length : ℚ) : List (ℚ × ℚ) → Option ℚ
  | [] => some 0
  | f :: fs =>
      (fdiv (f.2 * (length - f.1)) length).bind fun v =>
        (reactionR1E length fs).map fun s => v + s

/-- Checked version of the `R2` sum. -/
def reactionR2E (length : ℚ) : List (ℚ × ℚ) → Option ℚ
  | [] => some 0
  | f :: fs =>
      (fdiv (f.2 * f.1) length).bind fun v =>
        (reactionR2E length fs).map fun s => v + s

/-- `compute_sfd_bmd` with Python's only fallible operations (the two
divisions in the reaction formulas) made explicit; the sampling loop
itself performs no division. -/
def compute_sfd_bmdE (length : ℚ) (forces : List (ℚ × ℚ)) : Option BeamResult :=
  (reactionR1E length forces).bind fun R1 =>
    (reactionR2E length forces).map fun R2 =>
      let x := linspace length numSamples
      { x := x
        shear := x.map fun xi => (sampleAt R1 forces xi).1
        moment := x.map fun xi => (sampleAt R1 forces xi).2
        R1 := R1
        R2 := R2 }

/-- A cell of the rendered force table: either a bold header label or a
numeric value copied from the input data frame. -/
inductive Cell where
  | head : String → Cell
  | num : ℚ → Cell
deriving DecidableEq, Repr

/-- The force-table block of the report assembler: one header row, then
one row `(row["Position"], row["Force"])` per input row, in input
order. -/
def forceTableBlock (df : List (ℚ × ℚ)) : List (List Cell) :=
  [Cell.head "Position (m)", Cell.head "Force (kN)"] ::
    df.map fun row => [Cell.num row.1, Cell.num row.2]

-- ### Helper lemmas

lemma sampleAt_foldl (forces : List (ℚ × ℚ)) (xi V M : ℚ) :
    forces.foldl
      (fun VM f => if f.1 ≤ xi then (VM.1 - f.2, VM.2 - f.2 * (xi - f.1)) else VM)
      (V, M)
    = (V - ((forces.filter fun f => f.1 ≤ xi).map Prod.snd).sum,
       M - ((forces.filter fun f => f.1 ≤ xi).map fun f => f.2 * (xi - f.1)).sum) := by
  induction forces generalizing V M with
  | nil => simp
  | cons f fs ih =>
    by_cases h : f.1 ≤ xi
    · simp only [List.foldl_cons, if_pos h, ih, List.filter_cons, h, decide_True,
        if_true, List.map_cons, List.sum_cons, Prod.mk.injEq]
      constructor <;> ring
    · simp [List.foldl_cons, if_neg h, ih, List.filter_cons, h]

lemma sampleAt_eq (R1 : ℚ) (forces : List (ℚ × ℚ)) (xi : ℚ) :
    sampleAt R1 forces xi
      = (R1 - ((forces.filter fun f => f.1 ≤ xi).map Prod.snd).sum,
         R1 * xi - ((forces.filter fun f => f.1 ≤ xi).map fun f => f.2 * (xi - f.1)).sum) :=
  sampleAt_foldl forces xi R1 (R1 * xi)

lemma reactionR1_add_reactionR2 (length : ℚ) (hL : length ≠ 0)
    (forces : List (ℚ × ℚ)) :
    reactionR1 length forces + reactionR2 length forces
      = (forces.map Prod.snd).sum := by
  induction forces with
  | nil => simp [reactionR1, reactionR2]
  | cons f fs ih =>
    simp only [reactionR1, reactionR2, List.map_cons, List.sum_cons] at *
    have h : f.2 * (length - f.1) / length + f.2 * f.1 / length = f.2 := by
      field_simp
      ring
    linarith [ih, h]

lemma reactionR1_mul (length : ℚ) (hL : length ≠ 0) (forces : List (ℚ × ℚ)) :
    reactionR1 length forces * length
      = (forces.map fun f => f.2 * (length - f.1)).sum := by
  induction forces with
  | nil => simp [reactionR1]
  | cons f fs ih =>
    simp only [reactionR1, List.map_cons, List.sum_cons] at *
    rw [add_mul, ih, div_mul_cancel₀ _ hL]

-- ### Claim theorems

/-- Claim C1: for every length > 0 and every load list with positions in
[0, length], the reactions of compute_sfd_bmd satisfy R1 + R2 = sum of
all load magnitudes (global vertical equilibrium). -/
theorem spec_C1_equilibrium (length : ℚ) (forces : List (ℚ × ℚ))
    (hL : 0 < length) (hpos : ∀ f ∈ forces, 0 ≤ f.1 ∧ f.1 ≤ length) :
    (compute_sfd_bmd length forces).R1 + (compute_sfd_bmd length forces).R2
      = (forces.map Prod.snd).sum := by
  simpa [compute_sfd_bmd] using
    reactionR1_add_reactionR2 length (ne_of_gt hL) forces

theorem spec_C1_witness :
    (compute_sfd_bmd 10 [((5 : ℚ), 10), (2, 3)]).R1
        + (compute_sfd_bmd 10 [((5 : ℚ), 10), (2, 3)]).R2
      = (([((5 : ℚ), 10), (2, 3)]).map Prod.snd).sum :=
  spec_C1_equilibrium 10 [(5, 10), (2, 3)] (by norm_num) (by decide)

/-- Claim C2: for every length > 0 and every load list with positions in
[0, length], R1 satisfies R1 * length = Σ P * (length - a) (global moment
equilibrium about the x = length support). -/
theorem spec_C2_moment_equilibrium (length : ℚ) (forces : List (ℚ × ℚ))
    (hL : 0 < length) (hpos : ∀ f ∈ forces, 0 ≤ f.1 ∧ f.1 ≤ length) :
    (compute_sfd_bmd length forces).R1 * length
      = (forces.map fun f => f.2 * (length - f.1)).sum := by
  simpa [compute_sfd_bmd] using reactionR1_mul length (ne_of_gt hL) forces

theorem spec_C2_witness :
    (compute_sfd_bmd 10 [((5 : ℚ), 10), (2, 3)]).R1 * 10
      = (([((5 : ℚ), 10), (2, 3)]).map fun f => f.2 * (10 - f.1)).sum :=
  spec_C2_moment_equilibrium 10 [(5, 10), (2, 3)] (by norm_num) (by decide)

/-- Claim C3: for a single load (a, P) on a beam of length > 0 with
0 ≤ a ≤ length, every sampled shear value equals R1 at sample positions
x < a and R1 - P at sample positions x ≥ a: the load is included exactly
when the closed inequality x ≥ a holds. -/
theorem spec_C3_shear_step (length a P : ℚ) (hL : 0 < length)
    (ha0 : 0 ≤ a) (haL : a ≤ length) :
    (compute_sfd_bmd length [(a, P)]).shear
      = (compute_sfd_bmd length [(a, P)]).x.map fun xi =>
          if a ≤ xi then (compute_sfd_bmd length [(a, P)]).R1 - P
          else (compute_sfd_bmd length [(a, P)]).R1 := by
  simp only [compute_sfd_bmd]
  congr 1
  funext xi
  by_cases h : a ≤ xi <;>
    simp [sampleAt, h]

theorem spec_C3_witness :
    (compute_sfd_bmd 10 [((5 : ℚ), 10)]).shear
      = (compute_sfd_bmd 10 [((5 : ℚ), 10)]).x.map fun xi =>
          if 5 ≤ xi then (compute_sfd_bmd 10 [((5 : ℚ), 10)]).R1 - 10
          else (compute_sfd_bmd 10 [((5 : ℚ), 10)]).R1 :=
  spec_C3_shear_step 10 5 10 (by norm_num) (by norm_num) (by norm_num)

/-- Claim C4: for every length > 0, compute_sfd_bmd on the empty load
list returns R1 = 0, R2 = 0, and shear and moment sequences that are
identically zero at every sampled position. -/
theorem spec_C4_empty_loads (length : ℚ) (hL : 0 < length) :
    (compute_sfd_bmd length []).R1 = 0 ∧
    (compute_sfd_bmd length []).R2 = 0 ∧
    (∀ v ∈ (compute_sfd_bmd length []).shear, v = 0) ∧
    (∀ m ∈ (compute_sfd_bmd length []).moment, m = 0) := by
  refine ⟨rfl, rfl, ?_, ?_⟩ <;>
  · intro v hv
    simp only [compute_sfd_bmd, reactionR1, reactionR2, List.map_nil,
      List.sum_nil, List.mem_map, sampleAt, List.foldl_nil] at hv
    obtain ⟨xi, -, rfl⟩ := hv
    simp

theorem spec_C4_witness :
    (compute_sfd_bmd 7 []).R1 = 0 ∧
    (compute_sfd_bmd 7 []).R2 = 0 ∧
    (∀ v ∈ (compute_sfd_bmd 7 []).shear, v = 0) ∧
    (∀ m ∈ (compute_sfd_bmd 7 []).moment, m = 0) :=
  spec_C4_empty_loads 7 (by norm_num)

/-- Claim C5: for every length > 0, the position sequence has exactly
400 evenly spaced entries (consecutive difference length / 399), first
entry 0, last entry length, strictly increasing; shear and moment have
the same length as the position sequence. -/
theorem spec_C5_sampling_grid (length : ℚ) (forces : List (ℚ × ℚ))
    (hL : 0 < length) :
    (compute_sfd_bmd length forces).x.length = 400 ∧
    (compute_sfd_bmd length forces).shear.length = 400 ∧
    (compute_sfd_bmd length forces).moment.length = 400 ∧
    (compute_sfd_bmd length forces).x[0]? = some 0 ∧
    (compute_sfd_bmd length forces).x[399]? = some length ∧
    (compute_sfd_bmd length forces).x.Pairwise (· < ·) ∧
    (∀ i, i + 1 < 400 →
      ((compute_sfd_bmd length forces).x[i + 1]?).getD 0
        - ((compute_sfd_bmd length forces).x[i]?).getD 0 = length / 399) := by
  refine ⟨?_, ?_, ?_, ?_, ?_, ?_, ?_⟩
  · simp only [compute_sfd_bmd, linspace, numSamples, List.length_map,
      List.length_range]
  · simp only [compute_sfd_bmd, linspace, numSamples, List.length_map,
      List.length_range]
  · simp only [compute_sfd_bmd, linspace, numSamples, List.length_map,
      List.length_range]
  · have h0 : (0 : ℕ) < 400 := by norm_num
    simp [compute_sfd_bmd, linspace, numSamples, List.getElem?_map,
      List.getElem?_range h0]
  · have h399 : (399 : ℕ) < 400 := by norm_num
    simp only [compute_sfd_bmd, linspace, numSamples, List.getElem?_map,
      List.getElem?_range h399, Option.map_some']
    norm_num
  · simp only [compute_sfd_bmd, linspace, numSamples]
    refine List.Pairwise.map _ ?_ (List.pairwise_lt_range 400)
    intro i j hij
    have hij' : (i : ℚ) < (j : ℚ) := by exact_mod_cast hij
    have h1 : (i : ℚ) * length < (j : ℚ) * length :=
      mul_lt_mul_of_pos_right hij' hL
    have h399 : (0 : ℚ) < (400 : ℕ) - 1 := by norm_num
    exact (div_lt_div_iff_of_pos_right h399).mpr h1
  · intro i hi
    have hi' : i < 400 := by omega
    simp only [compute_sfd_bmd, linspace, numSamples, List.getElem?_map,
      List.getElem?_range hi, List.getElem?_range hi', Option.map_some',
      Option.getD_some]
    push_cast
    ring

theorem spec_C5_witness :
    (compute_sfd_bmd 10 []).x.length = 400 ∧
    (compute_sfd_bmd 10 []).shear.length = 400 ∧
    (compute_sfd_bmd 10 []).moment.length = 400 ∧
    (compute_sfd_bmd 10 []).x[0]? = some 0 ∧
    (compute_sfd_bmd 10 []).x[399]? = some 10 ∧
    (compute_sfd_bmd 10 []).x.Pairwise (· < ·) ∧
    (∀ i, i + 1 < 400 →
      ((compute_sfd_bmd 10 []).x[i + 1]?).getD 0
        - ((compute_sfd_bmd 10 []).x[i]?).getD 0 = 10 / 399) :=
  spec_C5_sampling_grid 10 [] (by norm_num)

/-- Claim C6: for length = 10 and loads = [(5, 10)], compute_sfd_bmd
yields R1 = 5 and R2 = 5; the shear function it evaluates equals 5 at
x < 5 and -5 at x ≥ 5; and the moment function it evaluates satisfies
moment(0) = 0, moment(5) = 25, moment(10) = 0. -/
theorem spec_C6_concrete_scenario :
    (compute_sfd_bmd 10 [(5, 10)]).R1 = 5 ∧
    (compute_sfd_bmd 10 [(5, 10)]).R2 = 5 ∧
    (∀ xi : ℚ,
      (sampleAt (compute_sfd_bmd 10 [(5, 10)]).R1 [(5, 10)] xi).1
        = if 5 ≤ xi then -5 else 5) ∧
    (sampleAt (compute_sfd_bmd 10 [(5, 10)]).R1 [(5, 10)] 0).2 = 0 ∧
    (sampleAt (compute_sfd_bmd 10 [(5, 10)]).R1 [(5, 10)] 5).2 = 25 ∧
    (sampleAt (compute_sfd_bmd 10 [(5, 10)]).R1 [(5, 10)] 10).2 = 0 := by
  have hR1 : (compute_sfd_bmd 10 [(5, 10)]).R1 = 5 := by
    norm_num [compute_sfd_bmd, reactionR1]
  have hR2 : (compute_sfd_bmd 10 [(5, 10)]).R2 = 5 := by
    norm_num [compute_sfd_bmd, reactionR2]
  refine ⟨hR1, hR2, ?_, ?_, ?_, ?_⟩
  · intro xi
    rw [hR1]
    by_cases h : (5 : ℚ) ≤ xi <;> simp [sampleAt, h] <;> norm_num
  · rw [hR1]; norm_num [sampleAt]
  · rw [hR1]; norm_num [sampleAt]
  · rw [hR1]; norm_num [sampleAt]

-- ### Checked-arithmetic helper lemmas for the error-behaviour claim

lemma reactionR1E_of_ne_zero (length : ℚ) (hL : length ≠ 0) :
    ∀ forces : List (ℚ × ℚ),
      reactionR1E length forces = some (reactionR1 length forces)
  | [] => by simp [reactionR1E, reactionR1]
  | f :: fs => by
      simp [reactionR1E, fdiv, hL, reactionR1E_of_ne_zero length hL fs,
        reactionR1, List.map_cons, List.sum_cons]

lemma reactionR2E_of_ne_zero (length : ℚ) (hL : length ≠ 0) :
    ∀ forces : List (ℚ × ℚ),
      reactionR2E length forces = some (reactionR2 length forces)
  | [] => by simp [reactionR2E, reactionR2]
  | f :: fs => by
      simp [reactionR2E, fdiv, hL, reactionR2E_of_ne_zero length hL fs,
        reactionR2, List.map_cons, List.sum_cons]

/-- Claim C7: compute_sfd_bmd raises no error (it is a total, pure
function) whenever length > 0, agreeing with the unchecked embedding;
its only error branch is the division in the reaction formulas, which
fires exactly when length = 0 and the load list is nonempty — so any
failure lies in the length ≤ 0 regime and is unreachable under the
precondition length > 0. -/
theorem spec_C7_error_behaviour :
    (∀ (length : ℚ) (forces : List (ℚ × ℚ)), 0 < length →
      compute_sfd_bmdE length forces = some (compute_sfd_bmd length forces)) ∧
    (∀ (length : ℚ) (forces : List (ℚ × ℚ)),
      compute_sfd_bmdE length forces = none ↔
        length = 0 ∧ forces ≠ []) := by
  constructor
  · intro length forces hL
    simp [compute_sfd_bmdE, compute_sfd_bmd,
      reactionR1E_of_ne_zero length (ne_of_gt hL),
      reactionR2E_of_ne_zero length (ne_of_gt hL)]
  · intro length forces
    by_cases hL : length = 0
    · subst hL
      cases forces with
      | nil => simp [compute_sfd_bmdE, reactionR1E, reactionR2E]
      | cons f fs => simp [compute_sfd_bmdE, reactionR1E, fdiv]
    · simp [compute_sfd_bmdE, reactionR1E_of_ne_zero length hL,
        reactionR2E_of_ne_zero length hL, hL]

theorem spec_C7_witness :
    compute_sfd_bmdE 10 [((5 : ℚ), 10)]
      = some (compute_sfd_bmd 10 [((5 : ℚ), 10)]) :=
  spec_C7_error_behaviour.1 10 [(5, 10)] (by norm_num)

/-- Claim C8: the force-table block contains exactly the
(position, magnitude) pairs of the input, each appearing exactly as
often as in the input, in the original input order, after the single
header row. -/
theorem spec_C8_table_round_trip (df : List (ℚ × ℚ)) :
    (forceTableBlock df).drop 1
      = df.map (fun row => [Cell.num row.1, Cell.num row.2]) ∧
    ∀ p P : ℚ,
      ((forceTableBlock df).drop 1).count [Cell.num p, Cell.num P]
        = df.count (p, P) := by
  refine ⟨rfl, ?_⟩
  intro p P
  simp only [forceTableBlock, List.drop_succ_cons, List.drop_zero]
  induction df with
  | nil => simp
  | cons r t ih =>
    simp only [List.map_cons, List.count_cons, ih]
    congr 1
    by_cases h : ((p, P) : ℚ × ℚ) = r
    · subst h
      simp
    · have hc : ¬[Cell.num p, Cell.num P] = [Cell.num r.1, Cell.num r.2] := by
        intro hc
        apply h
        simp only [List.cons.injEq, Cell.num.injEq, and_true] at hc
        exact Prod.ext hc.1 hc.2
      have hr : ¬r = (p, P) := fun hr => h hr.symm
      have hr2 : ¬(r.1 = p ∧ r.2 = P) := fun hb => hr (Prod.ext hb.1 hb.2)
      simp [beq_iff_eq, hc, hr, hr2]

theorem spec_C8_witness :
    (forceTableBlock [((1 : ℚ), 2), (3, 4)]).drop 1
      = ([((1 : ℚ), 2), (3, 4)]).map
          (fun row => [Cell.num row.1, Cell.num row.2]) ∧
    ∀ p P : ℚ,
      ((forceTableBlock [((1 : ℚ), 2), (3, 4)]).drop 1).count
          [Cell.num p, Cell.num P]
        = ([((1 : ℚ), 2), (3, 4)]).count (p, P) :=
  spec_C8_table_round_trip [(1, 2), (3, 4)]

lemma sampleAt_perm (R : ℚ) {f1 f2 : List (ℚ × ℚ)} (hp : f1.Perm f2)
    (xi : ℚ) : sampleAt R f1 xi = sampleAt R f2 xi := by
  rw [sampleAt_eq, sampleAt_eq]
  have hf := hp.filter (fun f => decide (f.1 ≤ xi))
  rw [(hf.map Prod.snd).sum_eq, (hf.map fun f => f.2 * (xi - f.1)).sum_eq]

/-- Claim C9: for every length > 0, compute_sfd_bmd returns identical
positions, shear, moment, R1 and R2 on any two load lists that are
permutations of each other (exact arithmetic). -/
theorem spec_C9_perm_invariant (length : ℚ) (f1 f2 : List (ℚ × ℚ))
    (hL : 0 < length) (hp : f1.Perm f2) :
    compute_sfd_bmd length f1 = compute_sfd_bmd length f2 := by
  have hR1 : reactionR1 length f1 = reactionR1 length f2 := by
    unfold reactionR1
    exact (hp.map _).sum_eq
  have hR2 : reactionR2 length f1 = reactionR2 length f2 := by
    unfold reactionR2
    exact (hp.map _).sum_eq
  have hs : ∀ R xi, sampleAt R f1 xi = sampleAt R f2 xi :=
    fun R xi => sampleAt_perm R hp xi
  simp only [compute_sfd_bmd, reactionR1, reactionR2] at hR1 hR2 ⊢
  rw [hR1, hR2]
  simp only [hs]

theorem spec_C9_witness :
    compute_sfd_bmd 10 [((5 : ℚ), 10), (2, 3)]
      = compute_sfd_bmd 10 [((2 : ℚ), 3), (5, 10)] :=
  spec_C9_perm_invariant 10 [(5, 10), (2, 3)] [(2, 3), (5, 10)]
    (by norm_num) (by decide)

/-- Claim C10: for every length > 0 and load list with positions in
[0, length], at the final sample position x = length the shear equals
-R2 and the moment equals 0 exactly. -/
theorem spec_C10_far_support (length : ℚ) (forces : List (ℚ × ℚ))
    (hL : 0 < length) (hpos : ∀ f ∈ forces, 0 ≤ f.1 ∧ f.1 ≤ length) :
    (compute_sfd_bmd length forces).x[399]? = some length ∧
    (compute_sfd_bmd length forces).shear[399]?
      = some (-(compute_sfd_bmd length forces).R2) ∧
    (compute_sfd_bmd length forces).moment[399]? = some 0 := by
  have h399 : (399 : ℕ) < 400 := by norm_num
  have hxval : ((399 : ℕ) : ℚ) * length / (((400 : ℕ) : ℚ) - 1) = length := by
    push_cast
    field_simp
    ring
  have hfilter : forces.filter (fun f => f.1 ≤ length) = forces :=
    List.filter_eq_self.mpr fun f hf => decide_eq_true (hpos f hf).2
  refine ⟨?_, ?_, ?_⟩
  · simp only [compute_sfd_bmd, linspace, numSamples, List.getElem?_map,
      List.getElem?_range h399, Option.map_some']
    rw [hxval]
  · simp only [compute_sfd_bmd, linspace, numSamples, List.getElem?_map,
      List.getElem?_range h399, Option.map_some']
    rw [hxval, sampleAt_eq, hfilter]
    have h := reactionR1_add_reactionR2 length (ne_of_gt hL) forces
    congr 1
    dsimp only
    linarith
  · simp only [compute_sfd_bmd, linspace, numSamples, List.getElem?_map,
      List.getElem?_range h399, Option.map_some']
    rw [hxval, sampleAt_eq, hfilter]
    have h := reactionR1_mul length (ne_of_gt hL) forces
    congr 1
    dsimp only
    linarith

theorem spec_C10_witness :
    (compute_sfd_bmd 10 [((5 : ℚ), 10)]).x[399]? = some 10 ∧
    (compute_sfd_bmd 10 [((5 : ℚ), 10)]).shear[399]?
      = some (-(compute_sfd_bmd 10 [((5 : ℚ), 10)]).R2) ∧
    (compute_sfd_bmd 10 [((5 : ℚ), 10)]).moment[399]? = some 0 :=
  spec_C10_far_support 10 [(5, 10)] (by norm_num) (by decide)
